import Mathlib

/-!
Shallow embedding of the article cross-reference and markup rendering core
of `streamlit_app.py`: the functions `render_markers_to_html`,
`create_article_links` and the `mentioned_articles` comprehension, together
with the Python string primitives (`in`, `str.replace`, `re.sub` on the four
literal colour-tag patterns, `sorted(key=len, reverse=True)`) they use.
Python strings are modelled as lists of characters.
-/

/-- Characters of a Python string. -/
abbrev Text := List Char

/-- `isPre pat s` is true iff `pat` is a prefix of `s`
(Python `s.startswith(pat)`). -/
def isPre : Text → Text → Bool
  | [], _ => true
  | _ :: _, [] => false
  | a :: as, b :: bs => a == b && isPre as bs

/-- Python substring test `pat in s`: `pat` occurs contiguously in `s`
(always true for empty `pat`). -/
def strContains : Text → Text → Bool
  | [], pat => isPre pat []
  | c :: cs, pat => isPre pat (c :: cs) || strContains cs pat

/-- One left-to-right pass of Python `s.replace(old, new)` for nonempty
`old`: scan the string; on a prefix match of `old` emit `new` and resume
after the matched occurrence, otherwise emit one character and continue. -/
def strReplaceAux (old new : Text) (s : Text) : Text :=
  if h : old ≠ [] ∧ isPre old s then
    new ++ strReplaceAux old new (s.drop old.length)
  else
    match s with
    | [] => []
    | c :: cs => c :: strReplaceAux old new cs
termination_by s.length
decreasing_by
  · rcases old with _ | ⟨a, as⟩
    · exact absurd rfl h.1
    · rcases s with _ | ⟨b, bs⟩
      · simp [isPre] at h
      · simp [List.length_drop]; omega
  · simp

/-- Python `s.replace(old, new)`: for empty `old`, `new` is inserted before
every character and at the end (CPython semantics); otherwise a single
left-to-right non-overlapping pass. -/
def strReplace (s old new : Text) : Text :=
  if old = [] then new ++ s.foldr (fun c acc => c :: (new ++ acc)) []
  else strReplaceAux old new s

/-- Split `s` at the first occurrence of `pat`: `some (before, after)` with
the `after` part carrying its length bound, `none` when `pat` does not occur
in `s`. -/
def splitFirst (pat : Text) : (s : Text) → Option (Text × {r : Text // r.length ≤ s.length})
  | [] => if isPre pat [] then some ([], ⟨[], Nat.le_refl 0⟩) else none
  | c :: cs =>
      if isPre pat (c :: cs) then
        some ([], ⟨(c :: cs).drop pat.length, by
          rw [List.length_drop]; exact Nat.sub_le _ _⟩)
      else
        (splitFirst pat cs).map fun p => (c :: p.1, ⟨p.2.1, Nat.le_succ_of_le p.2.2⟩)

/-- One `re.sub(oT + "(.*?)" + cT, pre + \1 + post, s, flags=re.DOTALL)`
pass for literal tags `oT`, `cT`: scan left to right; a match at a position
requires the literal open tag followed somewhere later by the close tag; the
non-greedy group captures up to the first close tag; the whole span is
replaced by `pre ++ content ++ post` and scanning resumes after the span. -/
def subTag (oT cT pre post : Text) (s : Text) : Text :=
  if h : oT ≠ [] ∧ isPre oT s then
    match splitFirst cT (s.drop oT.length) with
    | some p => pre ++ p.1 ++ post ++ subTag oT cT pre post p.2.1
    | none => s
  else
    match s with
    | [] => []
    | c :: cs => c :: subTag oT cT pre post cs
termination_by s.length
decreasing_by
  · rcases oT with _ | ⟨a, as⟩
    · exact absurd rfl h.1
    · rcases s with _ | ⟨b, bs⟩
      · simp [isPre] at h
      · have hb := p.2.2
        simp [List.length_drop] at hb ⊢
        omega
  · simp

def yellowOpen : Text := "<yellow>".data
def yellowClose : Text := "</yellow>".data
def greenOpen : Text := "<green>".data
def greenClose : Text := "</green>".data
def blueOpen : Text := "<blue>".data
def blueClose : Text := "</blue>".data
def redOpen : Text := "<red>".data
def redClose : Text := "</red>".data

def yellowMark : Text :=
  "<mark style=\"background-color: #ffeb3b; padding: 2px 4px; border-radius: 3px;\">".data
def greenMark : Text :=
  "<mark style=\"background-color: #8bc34a; padding: 2px 4px; border-radius: 3px;\">".data
def blueMark : Text :=
  "<mark style=\"background-color: #03a9f4; color: white; padding: 2px 4px; border-radius: 3px;\">".data
def redMark : Text :=
  "<mark style=\"background-color: #f44336; color: white; padding: 2px 4px; border-radius: 3px;\">".data
def markEnd : Text := "</mark>".data
def newlineChar : Text := ['\n']
def brTag : Text := "<br>".data

/-- `render_markers_to_html(text)`: the four colour tags are substituted in
the fixed order yellow, green, blue, red, each by one non-greedy DOTALL
`re.sub` pass, then every literal newline is replaced by `<br>`. -/
def render_markers_to_html (text : Text) : Text :=
  strReplace
    (subTag redOpen redClose redMark markEnd
      (subTag blueOpen blueClose blueMark markEnd
        (subTag greenOpen greenClose greenMark markEnd
          (subTag yellowOpen yellowClose yellowMark markEnd text))))
    newlineChar brTag

/-- The emphasis wrapper inserted by `create_article_links`. -/
def strongWrap (t : Text) : Text := "<strong>".data ++ t ++ "</strong>".data

/-- `sorted([t for t in all_titles if t != current_title], key=len,
reverse=True)`: candidates are all titles other than the current one, in a
stable sort by length descending. -/
def sorted_titles (all_titles : List Text) (current_title : Text) : List Text :=
  List.mergeSort (all_titles.filter fun t => t != current_title)
    fun a b => decide (b.length ≤ a.length)

/-- The substitution loop of `create_article_links`: fold over the candidate
titles, wrapping every occurrence of a candidate in the current (possibly
already modified) body. -/
def link_substitute (content : Text) (titles : List Text) : Text :=
  titles.foldl
    (fun acc t => if strContains acc t then strReplace acc t (strongWrap t) else acc)
    content

/-- `create_article_links(content, all_titles, current_title)`. -/
def create_article_links (content : Text) (all_titles : List Text)
    (current_title : Text) : Text :=
  render_markers_to_html (link_substitute content (sorted_titles all_titles current_title))

/-- The `mentioned_articles` comprehension:
`[t for t in all_titles if t != selected and t in article_content]`. -/
def mentioned_articles (article_content : Text) (all_titles : List Text)
    (selected : Text) : List Text :=
  all_titles.filter fun t => (t != selected) && strContains article_content t

set_option maxRecDepth 400000

/-! ## Basic facts about the string primitives -/

/-- If `pat` does not occur in `s` then in particular it is not a prefix of `s`. -/
theorem isPre_eq_false {s pat : Text} (h : strContains s pat = false) :
    isPre pat s = false := by
  cases s with
  | nil => simpa [strContains] using h
  | cons c cs => simp [strContains] at h; exact h.1

/-- Non-occurrence of `pat` is inherited by the tail. -/
theorem strContains_tail {c : Char} {cs pat : Text}
    (h : strContains (c :: cs) pat = false) : strContains cs pat = false := by
  simp [strContains] at h; exact h.2

/-- Non-occurrence of `pat` is inherited by any suffix obtained by `drop`. -/
theorem strContains_drop {pat : Text} (n : Nat) {s : Text}
    (h : strContains s pat = false) : strContains (s.drop n) pat = false := by
  induction n generalizing s with
  | zero => simpa using h
  | succ n ih =>
      cases s with
      | nil => simpa using h
      | cons c cs => simpa using ih (strContains_tail h)

/-- A nonempty pattern does not occur in the empty string. -/
theorem strContains_nil {t : Text} (h : t ≠ []) : strContains [] t = false := by
  cases t with
  | nil => exact absurd rfl h
  | cons a as => rfl

/-- If `pat` does not occur in `s`, `splitFirst` finds nothing. -/
theorem splitFirst_eq_none {pat s : Text} (h : strContains s pat = false) :
    splitFirst pat s = none := by
  induction s with
  | nil => simp [splitFirst, isPre_eq_false h]
  | cons c cs ih =>
      simp [splitFirst, isPre_eq_false h, ih (strContains_tail h)]

/-- A single `re.sub` tag pass leaves any string without the open tag unchanged. -/
theorem subTag_id_of_no_open (oT cT pre post s : Text)
    (h : strContains s oT = false) : subTag oT cT pre post s = s := by
  induction s using subTag.induct oT cT pre post with
  | case1 x hc p heq ih => rw [isPre_eq_false h] at hc; simp at hc
  | case2 x hc heq => rw [isPre_eq_false h] at hc; simp at hc
  | case3 h1 h2 => rw [subTag, dif_neg h1]
  | case4 c cs hc hc2 ih =>
      rw [subTag, dif_neg hc]
      simpa using ih (strContains_tail h)

/-- A single `re.sub` tag pass leaves any string without the close tag
unchanged: an open tag with no close tag after it never matches. -/
theorem subTag_id_of_no_close (oT cT pre post s : Text)
    (h : strContains s cT = false) : subTag oT cT pre post s = s := by
  induction s using subTag.induct oT cT pre post with
  | case1 x hc p heq ih =>
      rw [splitFirst_eq_none (strContains_drop _ h)] at heq
      simp at heq
  | case2 x hc heq => rw [subTag, dif_pos hc, heq]
  | case3 h1 h2 => rw [subTag, dif_neg h1]
  | case4 c cs hc hc2 ih =>
      rw [subTag, dif_neg hc]
      simpa using ih (strContains_tail h)

/-- `str.replace` with a pattern that does not occur is the identity. -/
theorem strReplaceAux_id {old new s : Text} (h : strContains s old = false) :
    strReplaceAux old new s = s := by
  induction s using strReplaceAux.induct old new with
  | case1 x hc ih => rw [isPre_eq_false h] at hc; simp at hc
  | case2 h1 h2 => rw [strReplaceAux, dif_neg h1]
  | case3 c cs hc hc2 ih =>
      rw [strReplaceAux, dif_neg hc]
      simpa using ih (strContains_tail h)

/-- `str.replace` with a nonempty pattern that does not occur is the identity. -/
theorem strReplace_id {s old new : Text} (hold : old ≠ [])
    (h : strContains s old = false) : strReplace s old new = s := by
  unfold strReplace
  rw [if_neg hold]
  exact strReplaceAux_id h

/-- A character that is in no element of `s` and not in `new` is absent from
the result of replacing every occurrence of that character by `new`. -/
theorem not_mem_strReplaceAux {c : Char} {new : Text} (hnew : c ∉ new) (s : Text) :
    c ∉ strReplaceAux [c] new s := by
  induction s using strReplaceAux.induct [c] new with
  | case1 x hc ih =>
      rw [strReplaceAux, dif_pos hc]
      simp only [List.mem_append, not_or]
      exact ⟨hnew, ih⟩
  | case2 h1 h2 =>
      rw [strReplaceAux, dif_neg h1]
      simp
  | case3 b bs hc hc2 ih =>
      rw [strReplaceAux, dif_neg hc]
      simp only [List.mem_cons, not_or]
      refine ⟨?_, ih⟩
      intro hcb
      subst hcb
      exact hc ⟨by simp, by simp [isPre]⟩

/-- Replacing every occurrence of a character removes it entirely whenever the
replacement text avoids it. -/
theorem not_mem_strReplace {c : Char} {new : Text} (hnew : c ∉ new) (s : Text) :
    c ∉ strReplace s [c] new := by
  unfold strReplace
  rw [if_neg (by simp : ¬(([c] : Text) = []))]
  exact not_mem_strReplaceAux hnew s

/-- A character that is not an element of `s` does not occur as the
one-character substring `[c]`. -/
theorem strContains_singleton_false {c : Char} {s : Text} (h : c ∉ s) :
    strContains s [c] = false := by
  induction s with
  | nil => rfl
  | cons b bs ih =>
      simp only [List.mem_cons, not_or] at h
      simp [strContains, isPre, ih h.2]
      exact fun hcb => absurd hcb h.1

/-! ## Facts about the markup renderer -/

/-- If none of the four open tags occurs, `render_markers_to_html` is exactly
the newline conversion. -/
theorem render_eq_of_no_open (s : Text)
    (hy : strContains s yellowOpen = false) (hg : strContains s greenOpen = false)
    (hb : strContains s blueOpen = false) (hr : strContains s redOpen = false) :
    render_markers_to_html s = strReplace s newlineChar brTag := by
  unfold render_markers_to_html
  rw [subTag_id_of_no_open yellowOpen yellowClose yellowMark markEnd s hy,
      subTag_id_of_no_open greenOpen greenClose greenMark markEnd s hg,
      subTag_id_of_no_open blueOpen blueClose blueMark markEnd s hb,
      subTag_id_of_no_open redOpen redClose redMark markEnd s hr]

/-- If none of the four close tags occurs, `render_markers_to_html` is exactly
the newline conversion: every open tag is unterminated and stays literal. -/
theorem render_eq_of_no_close (s : Text)
    (hy : strContains s yellowClose = false) (hg : strContains s greenClose = false)
    (hb : strContains s blueClose = false) (hr : strContains s redClose = false) :
    render_markers_to_html s = strReplace s newlineChar brTag := by
  unfold render_markers_to_html
  rw [subTag_id_of_no_close yellowOpen yellowClose yellowMark markEnd s hy,
      subTag_id_of_no_close greenOpen greenClose greenMark markEnd s hg,
      subTag_id_of_no_close blueOpen blueClose blueMark markEnd s hb,
      subTag_id_of_no_close redOpen redClose redMark markEnd s hr]

/-- The rendered output never contains a literal newline character: the final
replacement pass converts every newline and `<br>` introduces none. -/
theorem render_no_newline (t : Text) : '\n' ∉ render_markers_to_html t := by
  unfold render_markers_to_html
  have hnl : newlineChar = ['\n'] := rfl
  rw [hnl]
  exact not_mem_strReplace (by decide) _

unseal strReplaceAux subTag in
/-- Rendering the empty string gives the empty string. -/
theorem render_nil : render_markers_to_html [] = [] := rfl

/-! ## Facts about the mention linker -/

/-- Any member of the candidate list is a title of the universe different
from the current title. -/
theorem mem_sorted_titles {titles : List Text} {current t : Text}
    (h : t ∈ sorted_titles titles current) : t ∈ titles ∧ t ≠ current := by
  unfold sorted_titles at h
  rw [List.mem_mergeSort, List.mem_filter] at h
  exact ⟨h.1, by simpa using h.2⟩

/-- The candidate list is ordered by length, longest first. -/
theorem sorted_titles_pairwise (titles : List Text) (current : Text) :
    (sorted_titles titles current).Pairwise fun a b => b.length ≤ a.length := by
  unfold sorted_titles
  have hp := @List.sorted_mergeSort Text
    (fun a b => decide (b.length ≤ a.length))
    (fun a b c h1 h2 => by
      simp only [decide_eq_true_eq] at h1 h2 ⊢
      omega)
    (fun a b => by
      simp only [Bool.or_eq_true, decide_eq_true_eq]
      omega)
    (titles.filter fun t => t != current)
  exact hp.imp fun hab => by simpa using hab

/-- When no candidate occurs in the body, the substitution loop is the
identity. -/
theorem link_substitute_id {content : Text} {L : List Text}
    (h : ∀ t ∈ L, strContains content t = false) :
    link_substitute content L = content := by
  induction L with
  | nil => rfl
  | cons t ts ih =>
      unfold link_substitute
      simp only [List.foldl_cons]
      rw [h t (List.mem_cons_self t ts)]
      simpa [link_substitute] using ih fun x hx => h x (List.mem_cons_of_mem t hx)

/-! ## Claim theorems -/

unseal strReplaceAux subTag List.merge List.mergeSort in
/-- C1 (counterexample to the claim as stated): for body
"I love Python 3 and Python", title universe Python / Python 3 / Intro and
current title Intro, the output does not contain the intact whole emphasized
span around "Python 3", and it does contain emphasized "Python" followed by
the literal " 3" — because the later, shorter candidate "Python" is replaced
again inside the emphasis wrapper the earlier candidate inserted. -/
theorem python3_split_inside_outer_wrapper :
    strContains (create_article_links "I love Python 3 and Python".data
      ["Python".data, "Python 3".data, "Intro".data] "Intro".data)
      (strongWrap "Python 3".data) = false ∧
    strContains (create_article_links "I love Python 3 and Python".data
      ["Python".data, "Python 3".data, "Intro".data] "Intro".data)
      (strongWrap "Python".data ++ " 3".data) = true :=
  ⟨rfl, rfl⟩

unseal strReplaceAux subTag List.merge List.mergeSort in
/-- C1 (amended): candidate titles are processed in length-descending order
(longest first, here Python 3 before Python), and for the example body the
output is exactly
"I love <strong><strong>Python</strong> 3</strong> and <strong>Python</strong>":
the whole "Python 3" occurrence lies inside an outer emphasis wrapper, so
" 3" never falls outside emphasis, but the inner "Python" is wrapped a second
time inside that wrapper by the later substitution. -/
theorem python3_example_exact_output :
    (∀ (titles : List Text) (current : Text),
        (sorted_titles titles current).Pairwise fun a b => b.length ≤ a.length) ∧
    sorted_titles ["Python".data, "Python 3".data, "Intro".data] "Intro".data =
      ["Python 3".data, "Python".data] ∧
    create_article_links "I love Python 3 and Python".data
        ["Python".data, "Python 3".data, "Intro".data] "Intro".data =
      "I love <strong><strong>Python</strong> 3</strong> and <strong>Python</strong>".data :=
  ⟨sorted_titles_pairwise, rfl, rfl⟩

unseal strReplaceAux subTag in
/-- C2: each of the four colour tag kinds is replaced by its styled `<mark>`
container wrapping the inner content unchanged, the literal open and close
tokens are gone from the output, and the non-greedy span may contain a
newline (which the final pass then converts to `<br>`). -/
theorem render_four_color_tags :
    render_markers_to_html "<yellow>X</yellow>".data = yellowMark ++ "X".data ++ markEnd ∧
    render_markers_to_html "<green>X</green>".data = greenMark ++ "X".data ++ markEnd ∧
    render_markers_to_html "<blue>X</blue>".data = blueMark ++ "X".data ++ markEnd ∧
    render_markers_to_html "<red>X</red>".data = redMark ++ "X".data ++ markEnd ∧
    strContains (render_markers_to_html "<yellow>X</yellow>".data) yellowOpen = false ∧
    strContains (render_markers_to_html "<yellow>X</yellow>".data) yellowClose = false ∧
    strContains (render_markers_to_html "<green>X</green>".data) greenOpen = false ∧
    strContains (render_markers_to_html "<green>X</green>".data) greenClose = false ∧
    strContains (render_markers_to_html "<blue>X</blue>".data) blueOpen = false ∧
    strContains (render_markers_to_html "<blue>X</blue>".data) blueClose = false ∧
    strContains (render_markers_to_html "<red>X</red>".data) redOpen = false ∧
    strContains (render_markers_to_html "<red>X</red>".data) redClose = false ∧
    render_markers_to_html "<blue>a\nb</blue>".data = blueMark ++ "a<br>b".data ++ markEnd :=
  ⟨rfl, rfl, rfl, rfl, rfl, rfl, rfl, rfl, rfl, rfl, rfl, rfl, rfl⟩

/-- C3: on any text in which none of the eight recognized tag tokens occurs,
`render_markers_to_html` is exactly the replacement of every literal newline
by `<br>`, and nothing else changes. -/
theorem render_no_tokens_is_newline_conversion (t : Text)
    (hy : strContains t yellowOpen = false) (_hyc : strContains t yellowClose = false)
    (hg : strContains t greenOpen = false) (_hgc : strContains t greenClose = false)
    (hb : strContains t blueOpen = false) (_hbc : strContains t blueClose = false)
    (hr : strContains t redOpen = false) (_hrc : strContains t redClose = false) :
    render_markers_to_html t = strReplace t newlineChar brTag :=
  render_eq_of_no_open t hy hg hb hr

/-- C3 witness: the token-free text "hello\nworld". -/
theorem render_no_tokens_is_newline_conversion_witness :
    strContains "hello\nworld".data yellowOpen = false ∧
    render_markers_to_html "hello\nworld".data =
      strReplace "hello\nworld".data newlineChar brTag :=
  ⟨by decide,
    render_no_tokens_is_newline_conversion "hello\nworld".data (by decide) (by decide)
      (by decide) (by decide) (by decide) (by decide) (by decide) (by decide)⟩

unseal strReplaceAux subTag in
/-- C4: rendering is total on malformed markup; when no close tag occurs
anywhere, every open tag stays literal and only newline conversion happens;
in particular "<red>warning with no close" is returned unchanged with the
literal open token still present. -/
theorem render_unterminated_tag_literal :
    (∀ s : Text,
        strContains s yellowClose = false → strContains s greenClose = false →
        strContains s blueClose = false → strContains s redClose = false →
        render_markers_to_html s = strReplace s newlineChar brTag) ∧
    render_markers_to_html "<red>warning with no close".data =
      "<red>warning with no close".data ∧
    strContains (render_markers_to_html "<red>warning with no close".data) redOpen = true :=
  ⟨fun s hy hg hb hr => render_eq_of_no_close s hy hg hb hr, rfl, rfl⟩

/-- C4 witness: the unterminated red tag example itself. -/
theorem render_unterminated_tag_literal_witness :
    strContains "<red>warning with no close".data redClose = false ∧
    render_markers_to_html "<red>warning with no close".data =
      strReplace "<red>warning with no close".data newlineChar brTag :=
  ⟨by decide,
    render_unterminated_tag_literal.1 "<red>warning with no close".data
      (by decide) (by decide) (by decide) (by decide)⟩

/-- C5: `mentioned_articles` returns, in title-universe order, exactly the
titles other than the current one that occur as substrings of the original
body; its output is a sublist of the title universe (so never reordered by
length), and on the Go / Rust / Other example it returns [Go, Rust]. -/
theorem mentioned_articles_characterization :
    mentioned_articles "See Go and Rust".data
        ["Go".data, "Rust".data, "Other".data] "Other".data =
      ["Go".data, "Rust".data] ∧
    (∀ (body : Text) (titles : List Text) (current t : Text),
        t ∈ mentioned_articles body titles current ↔
          t ∈ titles ∧ ¬t = current ∧ strContains body t = true) ∧
    (∀ (body : Text) (titles : List Text) (current : Text),
        (mentioned_articles body titles current).Sublist titles) := by
  refine ⟨by decide, ?_, ?_⟩
  · intro body titles current t
    unfold mentioned_articles
    rw [List.mem_filter]
    simp
  · intro body titles current
    exact List.filter_sublist titles

/-- C5 witness: "Go" is reported as mentioned in the example. -/
theorem mentioned_articles_characterization_witness :
    "Go".data ∈ mentioned_articles "See Go and Rust".data
      ["Go".data, "Rust".data, "Other".data] "Other".data :=
  (mentioned_articles_characterization.2.1 "See Go and Rust".data
    ["Go".data, "Rust".data, "Other".data] "Other".data "Go".data).mpr (by decide)

/-- C6: the candidate list used by the substitution loop of
`create_article_links` never contains the current title, so the substitution
step never wraps the current article's own title. -/
theorem sorted_titles_excludes_current (titles : List Text) (current : Text) :
    current ∉ sorted_titles titles current :=
  fun h => (mem_sorted_titles h).2 rfl

/-- C6 witness: "Intro" is excluded from its own candidate list. -/
theorem sorted_titles_excludes_current_witness :
    "Intro".data ∉ sorted_titles ["Python".data, "Intro".data] "Intro".data :=
  sorted_titles_excludes_current ["Python".data, "Intro".data] "Intro".data

/-- C7: re-rendering already-rendered output is stable: if the rendered text
contains none of the eight literal tag tokens, applying
`render_markers_to_html` to it again changes nothing (the rendered text also
contains no newline, so the second newline pass is the identity too). -/
theorem render_twice_stable (t : Text)
    (hy : strContains (render_markers_to_html t) yellowOpen = false)
    (_hyc : strContains (render_markers_to_html t) yellowClose = false)
    (hg : strContains (render_markers_to_html t) greenOpen = false)
    (_hgc : strContains (render_markers_to_html t) greenClose = false)
    (hb : strContains (render_markers_to_html t) blueOpen = false)
    (_hbc : strContains (render_markers_to_html t) blueClose = false)
    (hr : strContains (render_markers_to_html t) redOpen = false)
    (_hrc : strContains (render_markers_to_html t) redClose = false) :
    render_markers_to_html (render_markers_to_html t) = render_markers_to_html t := by
  rw [render_eq_of_no_open _ hy hg hb hr]
  exact strReplace_id (by decide)
    (strContains_singleton_false (render_no_newline t))

unseal strReplaceAux subTag in
/-- C7 witness: the text "a\nb", whose rendering "a<br>b" is token-free. -/
theorem render_twice_stable_witness :
    strContains (render_markers_to_html "a\nb".data) yellowOpen = false ∧
    render_markers_to_html (render_markers_to_html "a\nb".data) =
      render_markers_to_html "a\nb".data :=
  ⟨by decide,
    render_twice_stable "a\nb".data (by decide) (by decide) (by decide) (by decide)
      (by decide) (by decide) (by decide) (by decide)⟩

unseal strReplaceAux subTag List.merge List.mergeSort in
/-- C8 (counterexample to the claim as stated): with the empty string as a
member of the title universe and a different current title, the empty body is
not mapped to the empty string — the Python replace of an empty pattern in an
empty string inserts the wrapper, yielding "<strong></strong>". -/
theorem empty_body_empty_title_counterexample :
    create_article_links [] [([] : Text)] "x".data = "<strong></strong>".data ∧
    (create_article_links [] [([] : Text)] "x".data == ([] : Text)) = false :=
  ⟨rfl, rfl⟩

/-- C8 (amended): on the empty body, for every title universe whose titles
are non-empty (as the data model guarantees) and every current title, the
mention linker returns the empty string; rendering the empty string also
returns the empty string. -/
theorem empty_body_identity (titles : List Text) (current : Text)
    (h : ∀ t ∈ titles, t ≠ ([] : Text)) :
    create_article_links [] titles current = [] ∧
    render_markers_to_html [] = [] := by
  refine ⟨?_, render_nil⟩
  unfold create_article_links
  rw [link_substitute_id fun t ht => strContains_nil (h t (mem_sorted_titles ht).1)]
  exact render_nil

/-- C8 witness: a one-element universe with a non-empty title. -/
theorem empty_body_identity_witness :
    (∀ t ∈ (["A".data] : List Text), t ≠ ([] : Text)) ∧
    create_article_links [] ["A".data] "B".data = [] :=
  ⟨by decide, (empty_body_identity ["A".data] "B".data (by decide)).1⟩

/-- C9: both core functions are total Lean functions of their inputs (so
defined and deterministic on every text and every title list); on inputs
where no candidate title occurs in the body and no tag token occurs, both
reduce to the identity transformation up to newline conversion. -/
theorem core_no_match_identity (content : Text) (titles : List Text) (current : Text)
    (hm : ∀ t ∈ titles, t ≠ current → strContains content t = false)
    (hy : strContains content yellowOpen = false)
    (_hyc : strContains content yellowClose = false)
    (hg : strContains content greenOpen = false)
    (_hgc : strContains content greenClose = false)
    (hb : strContains content blueOpen = false)
    (_hbc : strContains content blueClose = false)
    (hr : strContains content redOpen = false)
    (_hrc : strContains content redClose = false) :
    create_article_links content titles current = strReplace content newlineChar brTag ∧
    render_markers_to_html content = strReplace content newlineChar brTag := by
  have hsub : link_substitute content (sorted_titles titles current) = content :=
    link_substitute_id fun t ht =>
      hm t (mem_sorted_titles ht).1 (mem_sorted_titles ht).2
  refine ⟨?_, render_eq_of_no_open content hy hg hb hr⟩
  unfold create_article_links
  rw [hsub]
  exact render_eq_of_no_open content hy hg hb hr

/-- C9 witness: body "See nothing", universe [Go], current "Self". -/
theorem core_no_match_identity_witness :
    (∀ t ∈ (["Go".data] : List Text), t ≠ "Self".data →
        strContains "See nothing".data t = false) ∧
    create_article_links "See nothing".data ["Go".data] "Self".data =
      strReplace "See nothing".data newlineChar brTag :=
  ⟨by decide,
    (core_no_match_identity "See nothing".data ["Go".data] "Self".data (by decide)
      (by decide) (by decide) (by decide) (by decide) (by decide) (by decide)
      (by decide) (by decide)).1⟩

unseal strReplaceAux subTag List.merge List.mergeSort in
/-- C10: later substitutions are plain textual replaces on the already
modified body, so they can rewrite the inside of an emphasis wrapper inserted
earlier: with the pairwise-distinct non-empty titles "Python" and "g>" (a
substring of the wrapper text), the output rewrites both wrapper halves and
the intact wrapper around the matched title "Python" no longer occurs. -/
theorem later_title_rewrites_earlier_wrapper :
    create_article_links "Python".data ["Python".data, "g>".data] "X".data =
      "<stron<strong>g></strong>Python</stron<strong>g></strong>".data ∧
    strContains (create_article_links "Python".data ["Python".data, "g>".data] "X".data)
      (strongWrap "Python".data) = false :=
  ⟨rfl, rfl⟩
